import Mathlib

set_option linter.unusedVariables false

/-- Characters Python treats as whitespace: str.strip(), str.split() and the
regex class \s all use this same ASCII set. -/
def isSpaceCh (c : Char) : Bool :=
  c == ' ' || c == '\t' || c == '\n' || c == '\r' || c == '\x0b' || c == '\x0c'

/-- ASCII decimal digit, the characters str.isdigit accepts on ASCII input. -/
def isDigitCh (c : Char) : Bool := '0' ≤ c && c ≤ '9'

/-- First character of the identifier class [_a-zA-Z] in the declaration regex. -/
def identStartCh (c : Char) : Bool :=
  c == '_' || ('a' ≤ c && c ≤ 'z') || ('A' ≤ c && c ≤ 'Z')

/-- Continuation character of the identifier class [_a-zA-Z0-9]. -/
def identCh (c : Char) : Bool := identStartCh c || isDigitCh c

/-- Python str.strip() with no argument: remove leading and trailing whitespace. -/
def pyStrip (l : List Char) : List Char :=
  ((l.dropWhile isSpaceCh).reverse.dropWhile isSpaceCh).reverse

/-- Python str.isdigit() on ASCII text: nonempty and all characters digits. -/
def pyIsDigit (l : List Char) : Bool := !l.isEmpty && l.all isDigitCh

/-- Decimal value of a digit string, as computed by Python int(). -/
def digitsToNat (l : List Char) : Nat :=
  l.foldl (fun acc c => acc * 10 + (c.toNat - 48)) 0

/-- Python str.startswith, pattern first. -/
def begWith : List Char → List Char → Bool
  | [], _ => true
  | _ :: _, [] => false
  | p :: ps, x :: xs => p == x && begWith ps xs

/-- Python str.endswith, pattern first. -/
def endWith (s l : List Char) : Bool := begWith s.reverse l.reverse

/-- Python str.split(",") on character lists: splits at every comma and keeps
empty pieces, so the empty string yields one empty piece. -/
def splitComma : List Char → List (List Char)
  | [] => [[]]
  | c :: cs =>
    if c == ',' then [] :: splitComma cs
    else
      match splitComma cs with
      | [] => [[c]]
      | p :: ps => (c :: p) :: ps

/-- Python str.split() with no argument: split on whitespace runs, no empty
tokens.  The first argument accumulates the current token in reverse. -/
def splitWsAux : List Char → List Char → List (List Char)
  | [], [] => []
  | [], cur => [cur.reverse]
  | c :: cs, cur =>
    if isSpaceCh c then
      match cur with
      | [] => splitWsAux cs []
      | _ :: _ => cur.reverse :: splitWsAux cs []
    else splitWsAux cs (c :: cur)

/-- Python str.split() with no argument. -/
def splitWs (l : List Char) : List (List Char) := splitWsAux l []

/-- Runtime values handled by the interpreter: a Python int or a Python list. -/
inductive Value where
  | int : Int → Value
  | list : List Value → Value

/-- Failure outcomes of one line of processing: SyntaxError with its message
(the only exception the program raises itself), and the Python runtime errors
its operations can raise (list.pop on an empty list, arithmetic on a list,
division by zero, exceeding the recursion limit). -/
inductive PErr where
  | syntaxError : String → PErr
  | indexError : PErr
  | typeError : PErr
  | zeroDivisionError : PErr
  | recursionError : PErr
deriving DecidableEq

/-- True exactly on the SyntaxError variant; anything else escapes the
program's own `except SyntaxError` handling. -/
def isSyntaxErr : PErr → Bool
  | .syntaxError _ => true
  | _ => false

/-- The constants dictionary: a Python dict as an insertion-ordered
association list with unique keys. -/
abbrev SymTable := List (String × Value)

/-- Python dict lookup by key. -/
def lookupTbl : SymTable → String → Option Value
  | [], _ => none
  | (k, v) :: rest, key => if k == key then some v else lookupTbl rest key

/-- Python dict key membership test. -/
def memTbl (tbl : SymTable) (key : String) : Bool := (lookupTbl tbl key).isSome

/-- Python dict assignment: overwrite an existing key in place, otherwise
append, preserving insertion order. -/
def insertTbl : SymTable → String → Value → SymTable
  | [], key, v => [(key, v)]
  | (k, w) :: rest, key, v =>
    if k == key then (k, v) :: rest else (k, w) :: insertTbl rest key v

/-- An xml.etree ElementTree element: tag, attributes, text, children. -/
inductive XElem where
  | node : String → List (String × String) → Option String → List XElem → XElem

/-- Tag of an element. -/
def XElem.tag : XElem → String
  | .node t _ _ _ => t

/-- Attribute list of an element. -/
def XElem.attrs : XElem → List (String × String)
  | .node _ a _ _ => a

/-- Text of an element. -/
def XElem.text : XElem → Option String
  | .node _ _ s _ => s

/-- Child list of an element. -/
def XElem.children : XElem → List XElem
  | .node _ _ _ c => c

mutual

/-- Python str() of a value: decimal digits (with a leading minus sign when
negative) for an int, and the bracketed comma-separated element reprs for a
list. -/
def pyStr : Value → String
  | .int i => toString i
  | .list vs => "[" ++ String.intercalate ", " (pyStrList vs) ++ "]"

/-- Python str() of each element of a list, in order. -/
def pyStrList : List Value → List String
  | [] => []
  | v :: vs => pyStr v :: pyStrList vs

end

/-- Left-to-right map over Except, stopping at the first error, matching the
evaluation order of the Python list comprehension in parse_array. -/
def exMapM (f : List Char → Except PErr Value) : List (List Char) → Except PErr (List Value)
  | [] => .ok []
  | p :: ps =>
    match f p with
    | .error e => .error e
    | .ok x =>
      match exMapM f ps with
      | .error e => .error e
      | .ok xs => .ok (x :: xs)

/-- ConfigParser.parse_value together with the inlined ConfigParser.parse_array:
the array branch removes the wrapper by slicing off the first six characters
and the final one and splits the interior at every comma, the digit branch
parses a decimal literal, the lookup branch resolves a previously declared
constant, and everything else raises SyntaxError.  The Nat argument is a
recursion-depth budget standing in for Python's recursion limit; it is
provably irrelevant once it exceeds the input length (parseValueF_fuel). -/
def parseValueF (tbl : SymTable) : Nat → List Char → Except PErr Value
  | 0, _ => .error .recursionError
  | fuel + 1, v =>
    if begWith "array(".data v && endWith ")".data v then
      match exMapM (fun p => parseValueF tbl fuel (pyStrip p)) (splitComma ((v.drop 6).dropLast)) with
      | .error e => .error e
      | .ok elems => .ok (.list elems)
    else if pyIsDigit v then .ok (.int (Int.ofNat (digitsToNat v)))
    else
      match lookupTbl tbl (String.mk v) with
      | some w => .ok w
      | none => .error (.syntaxError ("Invalid value: " ++ String.mk v))

/-- ConfigParser.parse_value on a character list, with a depth budget that is
always sufficient. -/
def parse_value (tbl : SymTable) (v : List Char) : Except PErr Value :=
  parseValueF tbl (v.length + 1) v

/-- Python addition as the evaluator applies it to stack operands: ints add,
lists concatenate, mixed operand types raise TypeError. -/
def pyAdd : Value → Value → Except PErr Value
  | .int a, .int b => .ok (.int (a + b))
  | .list a, .list b => .ok (.list (a ++ b))
  | _, _ => .error .typeError

/-- Python subtraction: defined on ints only, otherwise TypeError. -/
def pySub : Value → Value → Except PErr Value
  | .int a, .int b => .ok (.int (a - b))
  | _, _ => .error .typeError

/-- Python multiplication: ints multiply, a list times an int replicates the
list (empty for a non-positive count), other combinations raise TypeError. -/
def pyMul : Value → Value → Except PErr Value
  | .int a, .int b => .ok (.int (a * b))
  | .list a, .int n => .ok (.list (List.flatten (List.replicate n.toNat a)))
  | .int n, .list a => .ok (.list (List.flatten (List.replicate n.toNat a)))
  | _, _ => .error .typeError

/-- Python floor division, the // operator: floor semantics on ints,
ZeroDivisionError on a zero divisor, TypeError on list operands. -/
def pyFloorDiv : Value → Value → Except PErr Value
  | .int a, .int b => if b = 0 then .error .zeroDivisionError else .ok (.int (a.fdiv b))
  | _, _ => .error .typeError

/-- Python %, the remainder matching floor division: its sign follows the
divisor.  ZeroDivisionError on a zero divisor, TypeError on list operands. -/
def pyMod : Value → Value → Except PErr Value
  | .int a, .int b => if b = 0 then .error .zeroDivisionError else .ok (.int (a.fmod b))
  | _, _ => .error .typeError

mutual

/-- Python == on values: ints by value, lists pointwise, mixed types are
simply unequal (no error). -/
def pyEq : Value → Value → Bool
  | .int a, .int b => a == b
  | .list a, .list b => pyEqList a b
  | _, _ => false

/-- Python == on lists: same length and pointwise equal. -/
def pyEqList : List Value → List Value → Bool
  | [], [] => true
  | a :: as, b :: bs => pyEq a b && pyEqList as bs
  | _, _ => false

end

mutual

/-- Python < on values: ints by order, lists lexicographically, an int
against a list raises TypeError. -/
def pyLt : Value → Value → Except PErr Bool
  | .int a, .int b => .ok (decide (a < b))
  | .list a, .list b => pyLtList a b
  | _, _ => .error .typeError

/-- Python list <: skip equal element pairs with ==, compare the first
differing pair with <, fall back to comparing lengths. -/
def pyLtList : List Value → List Value → Except PErr Bool
  | [], [] => .ok false
  | [], _ :: _ => .ok true
  | _ :: _, [] => .ok false
  | a :: as, b :: bs => if pyEq a b then pyLtList as bs else pyLt a b

end

/-- Python max(a, b): b when b > a, else a. -/
def pyMaxOp (a b : Value) : Except PErr Value :=
  match pyLt a b with
  | .error e => .error e
  | .ok gt => .ok (if gt then b else a)

/-- The six operator tokens of the evaluator. -/
def isOpTok (t : List Char) : Bool :=
  t == "+".data || t == "-".data || t == "*".data ||
    t == "/".data || t == "mod".data || t == "max".data

/-- Dispatch of an operator token to its Python operation, applied as a OP b
where b was popped first. -/
def applyOp (t : List Char) (a b : Value) : Except PErr Value :=
  if t == "+".data then pyAdd a b
  else if t == "-".data then pySub a b
  else if t == "*".data then pyMul a b
  else if t == "/".data then pyFloorDiv a b
  else if t == "mod".data then pyMod a b
  else pyMaxOp a b

/-- The token loop of ConfigParser.evaluate_expression, one step per token in
order: digit tokens push their int, tokens naming a declared constant push
its bound value (this check precedes the operator tests, as in the source's
elif chain), the six operators pop b then a and push a OP b — popping with
fewer than two operands on the stack raises IndexError, exactly as list.pop
does — and any other token raises SyntaxError.  The stack grows at the head
of the list. -/
def evalTokens (tbl : SymTable) : List (List Char) → List Value → Except PErr (List Value)
  | [], stack => .ok stack
  | t :: ts, stack =>
    if pyIsDigit t then evalTokens tbl ts (.int (Int.ofNat (digitsToNat t)) :: stack)
    else
      match lookupTbl tbl (String.mk t) with
      | some v => evalTokens tbl ts (v :: stack)
      | none =>
        if isOpTok t then
          match stack with
          | b :: a :: rest =>
            match applyOp t a b with
            | .error e => .error e
            | .ok r => evalTokens tbl ts (r :: rest)
          | _ => .error .indexError
        else .error (.syntaxError ("Unknown token in expression: " ++ String.mk t))

/-- ConfigParser.evaluate_expression on the text after the caret: whitespace
tokenization, the token loop from an empty stack, then the check that exactly
one value remains; that value is both printed and returned. -/
def evaluate_expression (tbl : SymTable) (expr : List Char) : Except PErr Value :=
  match evalTokens tbl (splitWs expr) [] with
  | .error e => .error e
  | .ok stack =>
    match stack with
    | [r] => .ok r
    | _ => .error (.syntaxError ("Invalid expression: " ++ String.mk expr))

/-- The constant element ConfigParser.add_to_xml builds for one declaration:
tagged constant, carrying the declared name as an attribute; a list value
contributes one value child per element with that element's str() as its
text, any other value becomes the element's own text. -/
def constantElem (name : String) (v : Value) : XElem :=
  match v with
  | .list vs =>
    .node "constant" [("name", name)] none
      (vs.map (fun x => .node "value" [] (some (pyStr x)) []))
  | .int i => .node "constant" [("name", name)] (some (pyStr (.int i))) []

/-- ConfigParser.add_to_xml: append the declaration's constant element under
the root. -/
def add_to_xml (root : XElem) (name : String) (v : Value) : XElem :=
  .node root.tag root.attrs root.text (root.children ++ [constantElem name v])

/-- Index of the last semicolon in a character list, if any. -/
def lastSemi : List Char → Option Nat
  | [] => none
  | c :: cs =>
    match lastSemi cs with
    | some p => some (p + 1)
    | none => if c == ';' then some 0 else none

/-- Greedy match of the regex tail (.+); against a prefix of u.  The dot does
not match a newline, so only the prefix before the first newline is usable;
greediness makes the semicolon of the pattern the last semicolon of that
prefix, and the group needs at least one character in front of it. -/
def dotPlusSemi (u : List Char) : Option (List Char) :=
  match lastSemi (u.takeWhile (fun c => c != '\n')) with
  | none => none
  | some p => if 1 ≤ p then some ((u.takeWhile (fun c => c != '\n')).take p) else none

/-- Backtracking of the greedy run \s* that precedes (.+); in the pattern:
try consuming k whitespace characters, largest first. -/
def wsBacktrack (rest : List Char) : Nat → Option (List Char)
  | 0 => dotPlusSemi rest
  | k + 1 =>
    match dotPlusSemi (rest.drop (k + 1)) with
    | some g => some g
    | none => wsBacktrack rest k

/-- Semantics of re.match on the declaration pattern with ident standing for
the class chain underscore-letter then underscore-letter-digit repeated: the
literal word global, then one or more whitespace, ident, optional whitespace,
the equals sign, then optional whitespace and the dot-plus group closed by a
semicolon.  Anchored at the start of the line only.  Up to the equals sign
greediness is deterministic: the identifier class contains neither whitespace
nor the equals sign, so shortening a greedy run there can never make the next
piece match.  After the equals sign the greedy whitespace run genuinely
backtracks against the group, which wsBacktrack performs largest-first. -/
def matchGlobal (l : List Char) : Option (List Char × List Char) :=
  if l.take 6 = "global".data then
    if (l.drop 6).takeWhile isSpaceCh = [] then none
    else
      match ((l.drop 6).dropWhile isSpaceCh).head? with
      | none => none
      | some c =>
        if identStartCh c then
          match ((((l.drop 6).dropWhile isSpaceCh).dropWhile identCh).dropWhile isSpaceCh) with
          | '=' :: rest =>
            match wsBacktrack rest (rest.takeWhile isSpaceCh).length with
            | some g => some (((l.drop 6).dropWhile isSpaceCh).takeWhile identCh, g)
            | none => none
          | _ => none
        else none
  else none

/-- The interpreter state of the ConfigParser class: the constants dict and
the xml document root. -/
structure ConfigParser where
  constants : SymTable
  xml_root : XElem

/-- ConfigParser.init: the empty constants dict and the bare config root. -/
def initState : ConfigParser :=
  ⟨[], .node "config" [] none []⟩

/-- ConfigParser.parse_global: regex match, literal parse, then the dict
write and the tree append.  The resulting state is returned alongside the
outcome; both writes sit after every point that can raise, as in the source,
so a raise leaves the state exactly as it was. -/
def parse_global (st : ConfigParser) (l : List Char) : Except PErr Unit × ConfigParser :=
  match matchGlobal l with
  | none => (.error (.syntaxError ("Invalid global declaration: " ++ String.mk l)), st)
  | some (name, value) =>
    match parse_value st.constants value with
    | .error e => (.error e, st)
    | .ok v =>
      (.ok (), { constants := insertTbl st.constants (String.mk name) v,
                 xml_root := add_to_xml st.xml_root (String.mk name) v })

/-- ConfigParser.parse_line: classify one normalized line and dispatch.  The
third component collects what the line printed. -/
def parse_line (st : ConfigParser) (l : List Char) : Except PErr Unit × ConfigParser × List String :=
  if l.isEmpty || begWith "#".data l then (.ok (), st, [])
  else if begWith "global ".data l then
    match parse_global st l with
    | (.ok _, st2) => (.ok (), st2, [])
    | (.error e, st2) => (.error e, st2, [])
  else if begWith "^".data l then
    match evaluate_expression st.constants (l.drop 1) with
    | .ok v => (.ok (), st, ["Result of expression: " ++ pyStr v])
    | .error e => (.error e, st, [])
  else (.error (.syntaxError ("Unknown syntax: " ++ String.mk l)), st, [])

/-- The loop of ConfigParser.parse_file: strip each raw line, process it,
stop at the first raised error, and concatenate everything printed. -/
def parse_lines (st : ConfigParser) : List (List Char) → Except PErr Unit × ConfigParser × List String
  | [] => (.ok (), st, [])
  | l :: ls =>
    match parse_line st (pyStrip l) with
    | (.ok _, st2, out) =>
      match parse_lines st2 ls with
      | (r, st3, outs) => (r, st3, out ++ outs)
    | (.error e, st2, out) => (.error e, st2, out)

example : parse_value [] "10".data = .ok (.int 10) := rfl
example : parse_value [] "array(1,2)".data = .ok (.list [.int 1, .int 2]) := rfl
example : parse_value [] "array()".data = .error (.syntaxError "Invalid value: ") := rfl
example : parse_value [] "array(array(1,2),3)".data = .error (.syntaxError "Invalid value: array(1") := rfl
example : parse_value [("x", .int 7)] "x".data = .ok (.int 7) := rfl
example : matchGlobal "global x = 10;".data = some ("x".data, "10".data) := rfl
example : matchGlobal "global y = array(1, 2, x);".data = some ("y".data, "array(1, 2, x)".data) := rfl
example : evaluate_expression [] " 3 4 +".data = .ok (.int 7) := rfl
example : evaluate_expression [] " 10 3 /".data = .ok (.int 3) := rfl
example : evaluate_expression [] " -10 3 /".data = .error (.syntaxError "Unknown token in expression: -10") := rfl
example : evaluate_expression [] " 1 +".data = .error .indexError := rfl
example : parse_line initState "bogus line".data = (.error (.syntaxError "Unknown syntax: bogus line"), initState, []) := rfl
example :
    parse_lines initState ["global x = 10;".data, "global y = array(1, 2, x);".data] =
      (.ok (),
        ⟨[("x", .int 10), ("y", .list [.int 1, .int 2, .int 10])],
          .node "config" [] none
            [.node "constant" [("name", "x")] (some "10") [],
             .node "constant" [("name", "y")] none
               [.node "value" [] (some "1") [],
                .node "value" [] (some "2") [],
                .node "value" [] (some "10") []]]⟩, []) := rfl
example : parse_line initState "global z = array();".data =
    (.error (.syntaxError "Invalid value: "), initState, []) := rfl
example : parse_line initState "^ 10 3 /".data =
    (.ok (), initState, ["Result of expression: 3"]) := rfl

theorem length_takeWhile_le' (p : Char → Bool) (l : List Char) :
    (l.takeWhile p).length ≤ l.length := by
  induction l with
  | nil => simp
  | cons c cs ih =>
    rw [List.takeWhile_cons]
    split
    · simpa using ih
    · simp

theorem length_dropWhile_le' (p : Char → Bool) (l : List Char) :
    (l.dropWhile p).length ≤ l.length := by
  induction l with
  | nil => simp
  | cons c cs ih =>
    rw [List.dropWhile_cons]
    split
    · exact Nat.le_trans ih (by simp)
    · simp

theorem length_pyStrip_le (l : List Char) : (pyStrip l).length ≤ l.length := by
  unfold pyStrip
  calc ((l.dropWhile isSpaceCh).reverse.dropWhile isSpaceCh).reverse.length
      = ((l.dropWhile isSpaceCh).reverse.dropWhile isSpaceCh).length := by simp
    _ ≤ (l.dropWhile isSpaceCh).reverse.length := length_dropWhile_le' _ _
    _ = (l.dropWhile isSpaceCh).length := by simp
    _ ≤ l.length := length_dropWhile_le' _ _

theorem splitComma_ne_nil (l : List Char) : splitComma l ≠ [] := by
  cases l with
  | nil => simp [splitComma]
  | cons c cs =>
    unfold splitComma
    split
    · simp
    · split <;> simp

theorem mem_splitComma_length {e l : List Char} (h : e ∈ splitComma l) : e.length ≤ l.length := by
  induction l generalizing e with
  | nil =>
    simp only [splitComma, List.mem_singleton] at h
    simp [h]
  | cons c cs ih =>
    unfold splitComma at h
    by_cases hc : (c == ',') = true
    · rw [if_pos hc] at h
      rcases List.mem_cons.1 h with h1 | h1
      · simp [h1]
      · exact Nat.le_trans (ih h1) (by simp)
    · rw [if_neg hc] at h
      rcases hsc : splitComma cs with _ | ⟨p, ps⟩
      · exact absurd hsc (splitComma_ne_nil cs)
      · rw [hsc] at h
        rcases List.mem_cons.1 h with h1 | h1
        · subst h1
          have hp : p ∈ splitComma cs := by rw [hsc]; exact List.mem_cons_self _ _
          have := ih hp
          simp only [List.length_cons]
          omega
        · have hp : e ∈ splitComma cs := by rw [hsc]; exact List.mem_cons_of_mem _ h1
          exact Nat.le_trans (ih hp) (by simp)

theorem begWith_length {p l : List Char} (h : begWith p l = true) : p.length ≤ l.length := by
  induction p generalizing l with
  | nil => simp
  | cons c cs ih =>
    cases l with
    | nil => simp [begWith] at h
    | cons x xs =>
      simp only [begWith, Bool.and_eq_true] at h
      simpa using ih h.2

theorem exMapM_congr {f g : List Char → Except PErr Value} {l : List (List Char)}
    (h : ∀ x ∈ l, f x = g x) : exMapM f l = exMapM g l := by
  induction l with
  | nil => rfl
  | cons p ps ih =>
    unfold exMapM
    rw [h p (List.mem_cons_self _ _), ih (fun x hx => h x (List.mem_cons_of_mem _ hx))]

theorem parseValueF_fuel (tbl : SymTable) :
    ∀ n m v, v.length < n → v.length < m → parseValueF tbl n v = parseValueF tbl m v := by
  intro n
  induction n with
  | zero => intro m v hn; omega
  | succ n ih =>
    intro m v hn hm
    match m with
    | 0 => omega
    | m' + 1 =>
      unfold parseValueF
      by_cases harr : (begWith "array(".data v && endWith ")".data v) = true
      · rw [if_pos harr, if_pos harr]
        have h6 : 6 ≤ v.length := by
          have := begWith_length (Bool.and_elim_left harr)
          simpa using this
        have hcong :
            exMapM (fun p => parseValueF tbl n (pyStrip p)) (splitComma ((v.drop 6).dropLast)) =
            exMapM (fun p => parseValueF tbl m' (pyStrip p)) (splitComma ((v.drop 6).dropLast)) := by
          apply exMapM_congr
          intro p hp
          have h1 : p.length ≤ ((v.drop 6).dropLast).length := mem_splitComma_length hp
          have h2 : ((v.drop 6).dropLast).length = v.length - 6 - 1 := by simp
          have h3 : (pyStrip p).length ≤ p.length := length_pyStrip_le p
          exact ih m' (pyStrip p) (by omega) (by omega)
        rw [hcong]
      · rw [if_neg harr, if_neg harr]

theorem parse_value_fuel {tbl : SymTable} {n : Nat} {v : List Char} (h : v.length < n) :
    parseValueF tbl n v = parse_value tbl v :=
  parseValueF_fuel tbl n (v.length + 1) v h (Nat.lt_succ_self _)

theorem identStartCh_not_space {c : Char} (h : identStartCh c = true) : isSpaceCh c = false := by
  by_contra hs
  rw [Bool.not_eq_false] at hs
  unfold isSpaceCh at hs
  simp only [Bool.or_eq_true, beq_iff_eq] at hs
  rcases hs with ((((h1 | h1) | h1) | h1) | h1) | h1 <;> subst h1 <;> exact absurd h (by decide)

theorem identStartCh_identCh {c : Char} (h : identStartCh c = true) : identCh c = true := by
  unfold identCh
  simp [h]

theorem begWith_append_self (p r : List Char) : begWith p (p ++ r) = true := by
  induction p with
  | nil => rfl
  | cons c cs ih => simp [begWith, ih]

theorem endWith_concat (c : Char) (y : List Char) : endWith [c] (y ++ [c]) = true := by
  unfold endWith
  rw [List.reverse_append]
  simp [begWith]

theorem splitComma_no_comma {l : List Char} (h : ',' ∉ l) : splitComma l = [l] := by
  induction l with
  | nil => rfl
  | cons c cs ih =>
    have hc : (c == ',') = false := by
      apply beq_false_of_ne
      intro he
      exact h (he ▸ List.mem_cons_self _ _)
    have hcs : ',' ∉ cs := fun hm => h (List.mem_cons_of_mem _ hm)
    conv_lhs => unfold splitComma
    rw [if_neg (by simp [hc]), ih hcs]

theorem splitComma_append {a r : List Char} (h : ',' ∉ a) :
    splitComma (a ++ ',' :: r) = a :: splitComma r := by
  induction a with
  | nil => rfl
  | cons c cs ih =>
    have hc : (c == ',') = false := by
      apply beq_false_of_ne
      intro he
      exact h (he ▸ List.mem_cons_self _ _)
    have hcs : ',' ∉ cs := fun hm => h (List.mem_cons_of_mem _ hm)
    simp only [List.cons_append]
    conv_lhs => unfold splitComma
    rw [if_neg (by simp [hc]), ih hcs]

theorem lastSemi_none {b : List Char} (hb : ';' ∉ b) : lastSemi b = none := by
  induction b with
  | nil => rfl
  | cons c cs ih =>
    have hc : (c == ';') = false := by
      apply beq_false_of_ne
      intro he
      exact hb (he ▸ List.mem_cons_self _ _)
    have hcs : ';' ∉ cs := fun hm => hb (List.mem_cons_of_mem _ hm)
    unfold lastSemi
    rw [ih hcs, hc]
    rfl

theorem lastSemi_append {a b : List Char} (ha : ';' ∉ a) (hb : ';' ∉ b) :
    lastSemi (a ++ ';' :: b) = some a.length := by
  induction a with
  | nil =>
    simp only [List.nil_append]
    unfold lastSemi
    rw [lastSemi_none hb]
    simp
  | cons c cs ih =>
    have hcs : ';' ∉ cs := fun hm => ha (List.mem_cons_of_mem _ hm)
    simp only [List.cons_append]
    unfold lastSemi
    rw [ih hcs]
    simp

theorem lookupTbl_insertTbl (tbl : SymTable) (k : String) (v : Value) :
    lookupTbl (insertTbl tbl k v) k = some v := by
  induction tbl with
  | nil => simp [insertTbl, lookupTbl]
  | cons kv rest ih =>
    obtain ⟨k0, v0⟩ := kv
    unfold insertTbl
    by_cases h : (k0 == k) = true
    · rw [if_pos h]
      unfold lookupTbl
      rw [if_pos h]
    · rw [if_neg h]
      unfold lookupTbl
      rw [if_neg h]
      exact ih

theorem fmod_bounds_of_neg (a : Int) {b : Int} (hb : b < 0) :
    b < a.fmod b ∧ a.fmod b ≤ 0 := by
  obtain ⟨n, rfl⟩ := Int.eq_negSucc_of_lt_zero hb
  cases a with
  | ofNat m =>
    cases m with
    | zero =>
      rw [show Int.fmod (Int.ofNat 0) (Int.negSucc n) = 0 from rfl]
      exact ⟨Int.negSucc_lt_zero n, le_refl 0⟩
    | succ k =>
      rw [show Int.fmod (Int.ofNat (k + 1)) (Int.negSucc n) = Int.subNatNat (k % (n + 1)) n from rfl]
      rw [Int.subNatNat_eq_coe, Int.negSucc_eq]
      have h2 : k % (n + 1) < n + 1 := Nat.mod_lt _ (Nat.succ_pos n)
      constructor <;> omega
  | negSucc m =>
    rw [show Int.fmod (Int.negSucc m) (Int.negSucc n) = -Int.ofNat ((m + 1) % (n + 1)) from rfl]
    rw [Int.negSucc_eq, Int.ofNat_eq_natCast]
    have h2 : (m + 1) % (n + 1) < n + 1 := Nat.mod_lt _ (Nat.succ_pos n)
    constructor <;> omega

theorem begWith_global_head {l : List Char} (hl : begWith "global ".data l = true) :
    l.isEmpty = false ∧ begWith "#".data l = false ∧ begWith "^".data l = false := by
  cases l with
  | nil => exact absurd hl (by decide)
  | cons c cs =>
    have hc : ('g' == c) = true := by
      have h' := hl
      rw [show "global ".data = 'g' :: "lobal ".data from rfl] at h'
      simp only [begWith, Bool.and_eq_true] at h'
      exact h'.1
    have hcg : c = 'g' := (eq_of_beq hc).symm
    subst hcg
    exact ⟨rfl, rfl, rfl⟩

theorem begWith_caret_head {l : List Char} (hl : begWith "^".data l = true) :
    l.isEmpty = false ∧ begWith "#".data l = false ∧ begWith "global ".data l = false := by
  cases l with
  | nil => exact absurd hl (by decide)
  | cons c cs =>
    have hc : ('^' == c) = true := by
      have h' := hl
      rw [show "^".data = ['^'] from rfl] at h'
      simp only [begWith, Bool.and_eq_true] at h'
      exact h'.1
    have hcg : c = '^' := (eq_of_beq hc).symm
    subst hcg
    exact ⟨rfl, rfl, rfl⟩

theorem parse_line_global (st : ConfigParser) (l : List Char)
    (hl : begWith "global ".data l = true) :
    parse_line st l = ((parse_global st l).1, (parse_global st l).2, []) := by
  obtain ⟨hne, hhash, -⟩ := begWith_global_head hl
  rcases hpg : parse_global st l with ⟨r, st2⟩
  cases r with
  | ok u =>
    cases u
    simp [parse_line, hne, hhash, hl, hpg]
  | error e =>
    simp [parse_line, hne, hhash, hl, hpg]

theorem parse_line_caret (st : ConfigParser) (l : List Char)
    (hl : begWith "^".data l = true) :
    parse_line st l =
      match evaluate_expression st.constants (l.drop 1) with
      | .ok v => (.ok (), st, ["Result of expression: " ++ pyStr v])
      | .error e => (.error e, st, []) := by
  obtain ⟨hne, hhash, hglob⟩ := begWith_caret_head hl
  simp [parse_line, hne, hhash, hglob, hl]

theorem parse_value_array (tbl : SymTable) (v : List Char)
    (hb : begWith "array(".data v = true) (he : endWith ")".data v = true) :
    parse_value tbl v =
      match exMapM (fun p => parseValueF tbl v.length (pyStrip p))
          (splitComma ((v.drop 6).dropLast)) with
      | .error e => .error e
      | .ok elems => .ok (.list elems) := by
  unfold parse_value
  conv_lhs => unfold parseValueF
  rw [if_pos (by rw [Bool.and_eq_true]; exact ⟨hb, he⟩)]

/-- Claim C1, counterexample: both the element array(1,2) and the element 3
parse on their own, yet the literal array(array(1,2),3) does not parse to the
two-element list of their values: the comma inside the nested array is also a
split point, so the first piece is the malformed text array(1. -/
theorem C1_counterexample :
    parse_value [] "array(1,2)".data = .ok (.list [.int 1, .int 2]) ∧
    parse_value [] "3".data = .ok (.int 3) ∧
    parse_value [] "array(array(1,2),3)".data =
      .error (.syntaxError "Invalid value: array(1") :=
  ⟨rfl, rfl, rfl⟩

/-- Claim C1 (amended): the Value Literal Parser splits the interior of
array(...) at every comma regardless of nesting depth.  For an array literal
array(a,b,c) whose element texts contain no commas, parsing yields exactly
the list of the three parses of the trimmed elements; commas inside nested
array(...) elements are split points too, so such literals fail to parse
(see the counterexample). -/
theorem C1_naive_split (tbl : SymTable) (a b c : List Char) (va vb vc : Value)
    (ha : ',' ∉ a) (hb : ',' ∉ b) (hc : ',' ∉ c)
    (hpa : parse_value tbl (pyStrip a) = .ok va)
    (hpb : parse_value tbl (pyStrip b) = .ok vb)
    (hpc : parse_value tbl (pyStrip c) = .ok vc) :
    parse_value tbl ("array(".data ++ (a ++ (',' :: (b ++ (',' :: (c ++ [')'])))))) =
      .ok (.list [va, vb, vc]) := by
  have hdrop : ("array(".data ++ (a ++ (',' :: (b ++ (',' :: (c ++ [')'])))))).drop 6
      = a ++ (',' :: (b ++ (',' :: (c ++ [')'])))) := List.drop_left' (by rfl)
  have hassoc : a ++ (',' :: (b ++ (',' :: (c ++ [')'])))) =
      (a ++ (',' :: (b ++ (',' :: c)))) ++ [')'] := by
    simp
  have hlast : (a ++ (',' :: (b ++ (',' :: (c ++ [')']))))).dropLast = a ++ (',' :: (b ++ (',' :: c))) := by
    rw [hassoc, List.dropLast_concat]
  have hsplit : splitComma (a ++ (',' :: (b ++ (',' :: c)))) = [a, b, c] := by
    rw [splitComma_append ha, splitComma_append hb, splitComma_no_comma hc]
  have hbeg : begWith "array(".data ("array(".data ++ (a ++ (',' :: (b ++ (',' :: (c ++ [')'])))))) = true :=
    begWith_append_self _ _
  have hend : endWith ")".data ("array(".data ++ (a ++ (',' :: (b ++ (',' :: (c ++ [')'])))))) = true := by
    have h2 : "array(".data ++ (a ++ (',' :: (b ++ (',' :: (c ++ [')']))))) =
        ("array(".data ++ a ++ (',' :: (b ++ (',' :: c)))) ++ [')'] := by simp
    rw [h2]
    exact endWith_concat ')' _
  have h6 : ("array(".data).length = 6 := rfl
  have hla : (pyStrip a).length <
      ("array(".data ++ (a ++ (',' :: (b ++ (',' :: (c ++ [')'])))))).length := by
    have h1 := length_pyStrip_le a
    simp only [List.length_append, List.length_cons, h6]
    omega
  have hlb : (pyStrip b).length <
      ("array(".data ++ (a ++ (',' :: (b ++ (',' :: (c ++ [')'])))))).length := by
    have h1 := length_pyStrip_le b
    simp only [List.length_append, List.length_cons, h6]
    omega
  have hlc : (pyStrip c).length <
      ("array(".data ++ (a ++ (',' :: (b ++ (',' :: (c ++ [')'])))))).length := by
    have h1 := length_pyStrip_le c
    simp only [List.length_append, List.length_cons, h6]
    omega
  rw [parse_value_array tbl _ hbeg hend]
  rw [hdrop, hlast, hsplit]
  have hfa : parseValueF tbl ("array(".data ++ (a ++ (',' :: (b ++ (',' :: (c ++ [')'])))))).length
      (pyStrip a) = .ok va := by rw [parse_value_fuel hla]; exact hpa
  have hfb : parseValueF tbl ("array(".data ++ (a ++ (',' :: (b ++ (',' :: (c ++ [')'])))))).length
      (pyStrip b) = .ok vb := by rw [parse_value_fuel hlb]; exact hpb
  have hfc : parseValueF tbl ("array(".data ++ (a ++ (',' :: (b ++ (',' :: (c ++ [')'])))))).length
      (pyStrip c) = .ok vc := by rw [parse_value_fuel hlc]; exact hpc
  simp only [exMapM, hfa, hfb, hfc]

/-- Witness for C1_naive_split at the elements of the spec's own scenario:
array(1, 2, x) with x previously bound to 10. -/
theorem C1_naive_split_witness :
    (',' ∉ "1".data) ∧ (',' ∉ " 2".data) ∧ (',' ∉ " x".data) ∧
    parse_value [("x", .int 10)] (pyStrip "1".data) = .ok (.int 1) ∧
    parse_value [("x", .int 10)] (pyStrip " 2".data) = .ok (.int 2) ∧
    parse_value [("x", .int 10)] (pyStrip " x".data) = .ok (.int 10) ∧
    parse_value [("x", .int 10)]
        ("array(".data ++ ("1".data ++ (',' :: (" 2".data ++ (',' :: (" x".data ++ [')'])))))) =
      .ok (.list [.int 1, .int 2, .int 10]) :=
  ⟨by decide, by decide, by decide, rfl, rfl, rfl,
    C1_naive_split [("x", .int 10)] "1".data " 2".data " x".data _ _ _
      (by decide) (by decide) (by decide) rfl rfl rfl⟩

/-- Claim C2, counterexample: processing the line does not bind z to the
empty list; it raises SyntaxError and leaves the state untouched. -/
theorem C2_counterexample :
    (parse_line initState "global z = array();".data).1 =
      .error (.syntaxError "Invalid value: ") ∧
    lookupTbl ((parse_line initState "global z = array();".data).2.1).constants "z" = none ∧
    ((parse_line initState "global z = array();".data).2.1).xml_root.children = [] :=
  ⟨rfl, rfl, rfl⟩

/-- Claim C2 (amended): the empty interior of array() splits into one
empty-string piece, whose parse raises SyntaxError (Invalid value), so the
whole line fails and neither the Symbol Table nor the Document Tree is
modified. -/
theorem C2_empty_array_fails :
    splitComma "".data = ["".data] ∧
    parse_value [] "".data = .error (.syntaxError "Invalid value: ") ∧
    parse_value [] "array()".data = .error (.syntaxError "Invalid value: ") ∧
    parse_line initState "global z = array();".data =
      (.error (.syntaxError "Invalid value: "), initState, []) :=
  ⟨rfl, rfl, rfl, rfl⟩

theorem evalTokens_cons (tbl : SymTable) (t : List Char) (ts : List (List Char))
    (stack : List Value) :
    evalTokens tbl (t :: ts) stack =
      if pyIsDigit t then evalTokens tbl ts (.int (Int.ofNat (digitsToNat t)) :: stack)
      else
        match lookupTbl tbl (String.mk t) with
        | some v => evalTokens tbl ts (v :: stack)
        | none =>
          if isOpTok t then
            match stack with
            | b :: a :: rest =>
              match applyOp t a b with
              | .error e => .error e
              | .ok r => evalTokens tbl ts (r :: rest)
            | _ => .error .indexError
          else .error (.syntaxError ("Unknown token in expression: " ++ String.mk t)) := rfl

/-- Claim C4: on integer operands with a nonzero divisor the / token computes
Int.fdiv and the mod token computes Int.fmod; together they satisfy the floor
division characterization: the quotient-remainder identity, a remainder that
takes the divisor's sign (nonnegative and below b for positive b, nonpositive
and above b for negative b), the matching two-sided bounds on the quotient,
and the concrete values -7 / 2 = -4 and -7 mod 2 = 1. -/
theorem C4_floor_divmod (tbl : SymTable) (a b : Int) (rest : List Value)
    (hb : b ≠ 0)
    (hdiv : lookupTbl tbl "/" = none) (hmod : lookupTbl tbl "mod" = none) :
    evalTokens tbl ["/".data] (.int b :: .int a :: rest) = .ok (.int (a.fdiv b) :: rest) ∧
    evalTokens tbl ["mod".data] (.int b :: .int a :: rest) = .ok (.int (a.fmod b) :: rest) ∧
    a.fmod b + b * a.fdiv b = a ∧
    (0 < b → 0 ≤ a.fmod b ∧ a.fmod b < b) ∧
    (b < 0 → b < a.fmod b ∧ a.fmod b ≤ 0) ∧
    (0 < b → b * a.fdiv b ≤ a ∧ a < b * (a.fdiv b + 1)) ∧
    (b < 0 → b * (a.fdiv b + 1) < a ∧ a ≤ b * a.fdiv b) ∧
    Int.fdiv (-7) 2 = -4 ∧ Int.fmod (-7) 2 = 1 := by
  have hmk1 : String.mk "/".data = "/" := rfl
  have hmk2 : String.mk "mod".data = "mod" := rfl
  refine ⟨?_, ?_, Int.fmod_add_fdiv a b, ?_, fmod_bounds_of_neg a, ?_, ?_, rfl, rfl⟩
  · rw [evalTokens_cons]
    rw [if_neg (by decide)]
    rw [hmk1, hdiv]
    rw [if_pos (by decide)]
    simp only [applyOp]
    rw [if_neg (by decide), if_neg (by decide), if_neg (by decide), if_pos (by decide)]
    simp only [pyFloorDiv]
    rw [if_neg hb]
    rfl
  · rw [evalTokens_cons]
    rw [if_neg (by decide)]
    rw [hmk2, hmod]
    rw [if_pos (by decide)]
    simp only [applyOp]
    rw [if_neg (by decide), if_neg (by decide), if_neg (by decide), if_neg (by decide),
      if_pos (by decide)]
    simp only [pyMod]
    rw [if_neg hb]
    rfl
  · intro hbp
    exact ⟨Int.fmod_nonneg' a hbp, Int.fmod_lt_of_pos a hbp⟩
  · intro hbp
    have hid := Int.fmod_add_fdiv a b
    have h1 := Int.fmod_nonneg' a hbp
    have h2 := Int.fmod_lt_of_pos a hbp
    have hq : b * (a.fdiv b + 1) = b * a.fdiv b + b := by ring
    constructor <;> linarith
  · intro hbn
    have hid := Int.fmod_add_fdiv a b
    obtain ⟨h1, h2⟩ := fmod_bounds_of_neg a hbn
    have hq : b * (a.fdiv b + 1) = b * a.fdiv b + b := by ring
    constructor <;> linarith

/-- Witness for C4_floor_divmod at the spec's own numbers a = -7, b = 2. -/
theorem C4_witness :
    ((2 : Int) ≠ 0) ∧ lookupTbl [] "/" = none ∧ lookupTbl [] "mod" = none ∧
    (evalTokens [] ["/".data] [.int 2, .int (-7)] = .ok [.int (Int.fdiv (-7) 2)] ∧
     evalTokens [] ["mod".data] [.int 2, .int (-7)] = .ok [.int (Int.fmod (-7) 2)] ∧
     Int.fmod (-7) 2 + 2 * Int.fdiv (-7) 2 = -7 ∧
     ((0 : Int) < 2 → 0 ≤ Int.fmod (-7) 2 ∧ Int.fmod (-7) 2 < 2) ∧
     ((2 : Int) < 0 → 2 < Int.fmod (-7) 2 ∧ Int.fmod (-7) 2 ≤ 0) ∧
     ((0 : Int) < 2 → 2 * Int.fdiv (-7) 2 ≤ -7 ∧ -7 < 2 * (Int.fdiv (-7) 2 + 1)) ∧
     ((2 : Int) < 0 → 2 * (Int.fdiv (-7) 2 + 1) < -7 ∧ -7 ≤ 2 * Int.fdiv (-7) 2) ∧
     Int.fdiv (-7) 2 = -4 ∧ Int.fmod (-7) 2 = 1) :=
  ⟨by decide, rfl, rfl, C4_floor_divmod [] (-7) 2 [] (by decide) rfl rfl⟩

/-- Claim C5, counterexample: the line caret minus-ten three slash does not
report -4; the token -10 fails isdigit, names no constant, and is no
operator, so evaluation raises SyntaxError (Unknown token) and nothing is
reported. -/
theorem C5_counterexample :
    parse_line initState "^ -10 3 /".data =
      (.error (.syntaxError "Unknown token in expression: -10"), initState, []) := rfl

/-- Claim C5 (amended): evaluating the expression line caret ten three slash
reports 3; evaluating the line with -10 instead fails with SyntaxError
(Unknown token): the leading minus sign makes the token fail the digit test,
so negative literals are not accepted as operands. -/
theorem C5_division_lines :
    parse_line initState "^ 10 3 /".data = (.ok (), initState, ["Result of expression: 3"]) ∧
    pyIsDigit "-10".data = false ∧
    evaluate_expression [] " -10 3 /".data =
      .error (.syntaxError "Unknown token in expression: -10") :=
  ⟨rfl, rfl, rfl⟩

/-- Claim C6, counterexample: the line caret one plus fails with IndexError,
which is not a SyntaxError at all, so it is not SyntaxError(StackUnderflow). -/
theorem C6_counterexample :
    (parse_line initState "^ 1 +".data).1 = .error .indexError ∧
    isSyntaxErr .indexError = false :=
  ⟨rfl, rfl⟩

/-- Claim C6 (amended): a binary operator token reached with fewer than two
operands on the stack makes evaluation fail with IndexError — the error
list.pop raises on an empty list, which the program does not catch — rather
than a SyntaxError; in particular the line caret one plus fails this way. -/
theorem C6_stack_underflow (tbl : SymTable) (t : List Char) (ts : List (List Char))
    (stack : List Value) (hop : isOpTok t = true)
    (htbl : lookupTbl tbl (String.mk t) = none) (hstack : stack.length < 2) :
    evalTokens tbl (t :: ts) stack = .error .indexError ∧
    parse_line initState "^ 1 +".data = (.error .indexError, initState, []) := by
  refine ⟨?_, rfl⟩
  have hdig : pyIsDigit t = false := by
    unfold isOpTok at hop
    simp only [Bool.or_eq_true] at hop
    rcases hop with ((((h1 | h1) | h1) | h1) | h1) | h1 <;>
      (rw [eq_of_beq h1]; decide)
  rcases stack with _ | ⟨x, _ | ⟨y, rest⟩⟩
  · rw [evalTokens_cons]
    rw [if_neg (by simp [hdig]), htbl, if_pos hop]
  · rw [evalTokens_cons]
    rw [if_neg (by simp [hdig]), htbl, if_pos hop]
  · simp only [List.length_cons] at hstack
    omega

/-- Witness for C6_stack_underflow: a plus with a single operand. -/
theorem C6_witness :
    isOpTok "+".data = true ∧
    lookupTbl [] (String.mk "+".data) = none ∧
    [Value.int 1].length < 2 ∧
    (evalTokens [] ["+".data] [.int 1] = .error .indexError ∧
     parse_line initState "^ 1 +".data = (.error .indexError, initState, [])) :=
  ⟨by decide, rfl, by decide,
    C6_stack_underflow [] "+".data [] [.int 1] (by decide) rfl (by decide)⟩

/-- Claim C3: for every line dispatched as a declaration whose regex match
yields name and literal text and whose literal parses, processing succeeds,
the Symbol Table afterwards maps the name to the parsed value (looked up
through the updated table), and exactly one new constant node with the
matching content is appended to the Document Tree; moreover the spec's
two-line scenario produces the table x to 10, y to the list 1, 2, 10 and a
tree with exactly the two matching child nodes. -/
theorem C3_declaration (st : ConfigParser) (l n v : List Char) (val : Value)
    (hl : begWith "global ".data l = true)
    (hm : matchGlobal l = some (n, v))
    (hv : parse_value st.constants v = .ok val) :
    parse_line st l =
      (.ok (), ⟨insertTbl st.constants (String.mk n) val,

        add_to_xml st.xml_root (String.mk n) val⟩, []) ∧
    lookupTbl (insertTbl st.constants (String.mk n) val) (String.mk n) = some val ∧
    (add_to_xml st.xml_root (String.mk n) val).children =
      st.xml_root.children ++ [constantElem (String.mk n) val] ∧
    parse_lines initState ["global x = 10;".data, "global y = array(1, 2, x);".data] =
      (.ok (),
        ⟨[("x", .int 10), ("y", .list [.int 1, .int 2, .int 10])],
          .node "config" [] none
            [.node "constant" [("name", "x")] (some "10") [],
             .node "constant" [("name", "y")] none
               [.node "value" [] (some "1") [],
                .node "value" [] (some "2") [],
                .node "value" [] (some "10") []]]⟩, []) := by
  have hpg : parse_global st l =
      (.ok (), ⟨insertTbl st.constants (String.mk n) val,
        add_to_xml st.xml_root (String.mk n) val⟩) := by
    simp only [parse_global, hm, hv]
  refine ⟨?_, lookupTbl_insertTbl _ _ _, rfl, rfl⟩
  rw [parse_line_global st l hl, hpg]

/-- Witness for C3_declaration at the first line of the spec's scenario. -/
theorem C3_witness :
    begWith "global ".data "global x = 10;".data = true ∧
    matchGlobal "global x = 10;".data = some ("x".data, "10".data) ∧
    parse_value initState.constants "10".data = .ok (.int 10) ∧
    parse_line initState "global x = 10;".data =
      (.ok (), ⟨insertTbl initState.constants (String.mk "x".data) (.int 10),
        add_to_xml initState.xml_root (String.mk "x".data) (.int 10)⟩, []) :=
  ⟨rfl, rfl, rfl,
    (C3_declaration initState "global x = 10;".data "x".data "10".data (.int 10)
      rfl rfl rfl).1⟩

/-- Claim C7: declaration processing is atomic.  Whenever the literal text of
a matched declaration fails to parse, parse_global raises that error and
returns the state unchanged — the dict write and the tree append sit after
the whole literal (including every array element) has parsed — and the whole
line fails the same way with no Symbol Table or Document Tree mutation. -/
theorem C7_atomic_declaration (st : ConfigParser) (l n v : List Char) (e : PErr)
    (hl : begWith "global ".data l = true)
    (hm : matchGlobal l = some (n, v))
    (hv : parse_value st.constants v = .error e) :
    parse_global st l = (.error e, st) ∧
    parse_line st l = (.error e, st, []) := by
  have hpg : parse_global st l = (.error e, st) := by
    simp only [parse_global, hm, hv]
  exact ⟨hpg, by rw [parse_line_global st l hl, hpg]⟩

/-- Witness for C7_atomic_declaration: a declaration whose array literal
fails to parse leaves the state untouched. -/
theorem C7_witness :
    begWith "global ".data "global z = array(1, oops);".data = true ∧
    matchGlobal "global z = array(1, oops);".data =
      some ("z".data, "array(1, oops)".data) ∧
    parse_value initState.constants "array(1, oops)".data =
      .error (.syntaxError "Invalid value: oops") ∧
    (parse_global initState "global z = array(1, oops);".data =
      (.error (.syntaxError "Invalid value: oops"), initState) ∧
     parse_line initState "global z = array(1, oops);".data =
      (.error (.syntaxError "Invalid value: oops"), initState, [])) :=
  ⟨rfl, rfl, rfl,
    C7_atomic_declaration initState "global z = array(1, oops);".data
      "z".data "array(1, oops)".data (.syntaxError "Invalid value: oops") rfl rfl rfl⟩

/-- Claim C8: an expression line never changes the interpreter state — the
Expression Evaluator reads the Symbol Table but the line leaves both the
table and the Document Tree exactly as they were — and on success it reports
exactly one result for the line, the printed string of the single value. -/
theorem C8_expression_frame (st : ConfigParser) (l : List Char)
    (hl : begWith "^".data l = true) :
    (parse_line st l).2.1 = st ∧
    (∀ v, evaluate_expression st.constants (l.drop 1) = .ok v →
      parse_line st l = (.ok (), st, ["Result of expression: " ++ pyStr v])) ∧
    (∀ e, evaluate_expression st.constants (l.drop 1) = .error e →
      parse_line st l = (.error e, st, [])) := by
  rw [parse_line_caret st l hl]
  refine ⟨?_, ?_, ?_⟩
  · rcases hev : evaluate_expression st.constants (l.drop 1) with e | v <;> rfl
  · intro v hev
    rw [hev]
  · intro e hev
    rw [hev]

/-- Witness for C8_expression_frame at the scenario line caret three four
plus: one result is reported and the state is unchanged. -/
theorem C8_witness :
    begWith "^".data "^ 3 4 +".data = true ∧
    evaluate_expression initState.constants ("^ 3 4 +".data.drop 1) = .ok (.int 7) ∧
    parse_line initState "^ 3 4 +".data =
      (.ok (), initState, ["Result of expression: 7"]) :=
  ⟨rfl, rfl, (C8_expression_frame initState "^ 3 4 +".data rfl).2.1 (.int 7) rfl⟩

/-- Claim C9: a blank line or a comment line is ignored with no state change
and no output, and a non-blank line that is not a comment, not a declaration
prefix and not an expression prefix fails with SyntaxError (Unknown syntax)
carrying the line, again with no state change and no output. -/
theorem C9_dispatch (st : ConfigParser) (l : List Char) :
    ((l = [] ∨ begWith "#".data l = true) → parse_line st l = (.ok (), st, [])) ∧
    (l ≠ [] → begWith "#".data l = false → begWith "global ".data l = false →
      begWith "^".data l = false →
      parse_line st l = (.error (.syntaxError ("Unknown syntax: " ++ String.mk l)), st, [])) := by
  constructor
  · rintro (rfl | hh)
    · rfl
    · have hne : l.isEmpty = false ∨ l.isEmpty = true := by
        rcases l.isEmpty <;> simp
      simp [parse_line, hh]
  · intro h0 h1 h2 h3
    have hne : l.isEmpty = false := by
      cases l with
      | nil => exact absurd rfl h0
      | cons c cs => rfl
    simp [parse_line, hne, h1, h2, h3]

/-- Witness for C9_dispatch at the scenario line bogus line. -/
theorem C9_witness :
    "bogus line".data ≠ ([] : List Char) ∧
    begWith "#".data "bogus line".data = false ∧
    begWith "global ".data "bogus line".data = false ∧
    begWith "^".data "bogus line".data = false ∧
    parse_line initState "bogus line".data =
      (.error (.syntaxError "Unknown syntax: bogus line"), initState, []) :=
  ⟨by decide, rfl, rfl, rfl,
    (C9_dispatch initState "bogus line".data).2 (by decide) rfl rfl rfl⟩

theorem matchGlobal_shape (c0 : Char) (n' : List Char) (cv : Char) (v' t : List Char)
    (h0 : identStartCh c0 = true) (h1 : ∀ c ∈ n', identCh c = true)
    (hsv : isSpaceCh cv = false)
    (hvsemi : ';' ∉ cv :: v') (hvnl : '\n' ∉ cv :: v') (ht : ';' ∉ t) :
    matchGlobal ("global ".data ++ ((c0 :: n') ++ (" = ".data ++ ((cv :: v') ++ (';' :: t))))) =
      some (c0 :: n', cv :: v') := by
  have hsp0 : isSpaceCh c0 = false := identStartCh_not_space h0
  have hA : ("global ".data ++ ((c0 :: n') ++ (" = ".data ++ ((cv :: v') ++ (';' :: t))))).take 6 =
      "global".data := rfl
  have hB : (("global ".data ++ ((c0 :: n') ++ (" = ".data ++ ((cv :: v') ++ (';' :: t))))).drop 6).takeWhile isSpaceCh =
      [' '] := by
    show (' ' :: (c0 :: (n' ++ (" = ".data ++ ((cv :: v') ++ (';' :: t)))))).takeWhile isSpaceCh = [' ']
    rw [List.takeWhile_cons_of_pos (by decide), List.takeWhile_cons_of_neg (by simp [hsp0])]
  have hC : (("global ".data ++ ((c0 :: n') ++ (" = ".data ++ ((cv :: v') ++ (';' :: t))))).drop 6).dropWhile isSpaceCh =
      c0 :: (n' ++ (" = ".data ++ ((cv :: v') ++ (';' :: t)))) := by
    show (' ' :: (c0 :: (n' ++ (" = ".data ++ ((cv :: v') ++ (';' :: t)))))).dropWhile isSpaceCh = _
    rw [List.dropWhile_cons_of_pos (by decide), List.dropWhile_cons_of_neg (by simp [hsp0])]
  have hD : (c0 :: (n' ++ (" = ".data ++ ((cv :: v') ++ (';' :: t))))).takeWhile identCh =
      c0 :: n' := by
    rw [List.takeWhile_cons_of_pos (by simp [identStartCh_identCh h0])]
    rw [List.takeWhile_append_of_pos h1]
    rw [show (" = ".data ++ ((cv :: v') ++ (';' :: t))) =
      ' ' :: ('=' :: (' ' :: ((cv :: v') ++ (';' :: t)))) from rfl]
    rw [List.takeWhile_cons_of_neg (by decide)]
    simp
  have hE : ((c0 :: (n' ++ (" = ".data ++ ((cv :: v') ++ (';' :: t))))).dropWhile identCh).dropWhile isSpaceCh =
      '=' :: (' ' :: ((cv :: v') ++ (';' :: t))) := by
    rw [List.dropWhile_cons_of_pos (by simp [identStartCh_identCh h0])]
    rw [List.dropWhile_append_of_pos h1]
    rw [show (" = ".data ++ ((cv :: v') ++ (';' :: t))) =
      ' ' :: ('=' :: (' ' :: ((cv :: v') ++ (';' :: t)))) from rfl]
    rw [List.dropWhile_cons_of_neg (by decide)]
    rw [List.dropWhile_cons_of_pos (by decide), List.dropWhile_cons_of_neg (by decide)]
  have hF : ((' ' :: ((cv :: v') ++ (';' :: t))).takeWhile isSpaceCh).length = 1 := by
    rw [List.takeWhile_cons_of_pos (by decide)]
    rw [show ((cv :: v') ++ (';' :: t)) = cv :: (v' ++ (';' :: t)) from rfl]
    rw [List.takeWhile_cons_of_neg (by simp [hsv])]
    rfl
  have hG : dotPlusSemi ((cv :: v') ++ (';' :: t)) = some (cv :: v') := by
    have hvnl' : ∀ c ∈ cv :: v', (c != '\n') = true := by
      intro c hcm
      simp only [bne_iff_ne, ne_eq]
      intro hcn
      exact hvnl (hcn ▸ hcm)
    have hw : ((cv :: v') ++ (';' :: t)).takeWhile (fun c => c != '\n') =
        (cv :: v') ++ (';' :: t.takeWhile (fun c => c != '\n')) := by
      rw [List.takeWhile_append_of_pos hvnl']
      rw [List.takeWhile_cons_of_pos (by decide)]
    have hsemitw : ';' ∉ t.takeWhile (fun c => c != '\n') := by
      intro hm
      exact ht (List.takeWhile_subset _ hm)
    have hls : lastSemi ((cv :: v') ++ (';' :: t.takeWhile (fun c => c != '\n'))) =
        some (cv :: v').length := lastSemi_append hvsemi hsemitw
    unfold dotPlusSemi
    rw [hw, hls]
    show (if 1 ≤ (cv :: v').length then
        some (((cv :: v') ++ (';' :: t.takeWhile (fun c => c != '\n'))).take (cv :: v').length)
      else none) = some (cv :: v')
    rw [if_pos (by simp), List.take_left]
  have hWB : wsBacktrack (' ' :: ((cv :: v') ++ (';' :: t)))
      ((' ' :: ((cv :: v') ++ (';' :: t))).takeWhile isSpaceCh).length = some (cv :: v') := by
    rw [hF]
    show (match dotPlusSemi ((' ' :: ((cv :: v') ++ (';' :: t))).drop (0 + 1)) with
      | some g => some g
      | none => wsBacktrack (' ' :: ((cv :: v') ++ (';' :: t))) 0) = some (cv :: v')
    rw [show (' ' :: ((cv :: v') ++ (';' :: t))).drop (0 + 1) = (cv :: v') ++ (';' :: t) from rfl]
    rw [hG]
  unfold matchGlobal
  rw [if_pos hA, if_neg (by rw [hB]; simp), hC]
  simp only [List.head?_cons]
  rw [if_pos h0, hD, hE]
  show (match wsBacktrack (' ' :: ((cv :: v') ++ (';' :: t)))
      ((' ' :: ((cv :: v') ++ (';' :: t))).takeWhile isSpaceCh).length with
    | some g => some (c0 :: n', g)
    | none => none) = some (c0 :: n', cv :: v')
  rw [hWB]

/-- Claim C10: the declaration regex is matched with re.match, anchored at
the start of the line only, so text after the final semicolon is ignored:
for a line global ident = literal ; trailing where the literal is a trimmed
nonempty text without semicolons or newlines and the trailing text contains
no semicolon, processing the line equals processing the same line with the
trailing text removed, and when the literal parses the name is bound exactly
as without the trailing text. -/
theorem C10_anchored_declaration (st : ConfigParser) (c0 : Char) (n' : List Char)
    (cv : Char) (v' t : List Char)
    (h0 : identStartCh c0 = true) (h1 : ∀ c ∈ n', identCh c = true)
    (hsv : isSpaceCh cv = false)
    (hvsemi : ';' ∉ cv :: v') (hvnl : '\n' ∉ cv :: v') (ht : ';' ∉ t) :
    parse_line st ("global ".data ++ ((c0 :: n') ++ (" = ".data ++ ((cv :: v') ++ (';' :: t))))) =
      parse_line st ("global ".data ++ ((c0 :: n') ++ (" = ".data ++ ((cv :: v') ++ [';'])))) ∧
    (∀ val, parse_value st.constants (cv :: v') = .ok val →
      parse_line st ("global ".data ++ ((c0 :: n') ++ (" = ".data ++ ((cv :: v') ++ (';' :: t))))) =
        (.ok (), ⟨insertTbl st.constants (String.mk (c0 :: n')) val,
          add_to_xml st.xml_root (String.mk (c0 :: n')) val⟩, [])) := by
  have hmt := matchGlobal_shape c0 n' cv v' t h0 h1 hsv hvsemi hvnl ht
  have hm0 := matchGlobal_shape c0 n' cv v' [] h0 h1 hsv hvsemi hvnl (by simp)
  have hpg : ∀ l', matchGlobal l' = some (c0 :: n', cv :: v') →
      parse_global st l' =
        (match parse_value st.constants (cv :: v') with
         | .error e => (.error e, st)
         | .ok val => (.ok (), ⟨insertTbl st.constants (String.mk (c0 :: n')) val,
             add_to_xml st.xml_root (String.mk (c0 :: n')) val⟩)) := by
    intro l' hm'
    simp only [parse_global, hm']
  constructor
  · rw [parse_line_global st _ (begWith_append_self _ _),
      parse_line_global st _ (begWith_append_self _ _),
      hpg _ hmt, hpg _ hm0]
  · intro val hval
    rw [parse_line_global st _ (begWith_append_self _ _), hpg _ hmt, hval]

/-- Witness for C10_anchored_declaration: the line global x = 10; junk binds
x to 10 exactly as global x = 10; does. -/
theorem C10_witness :
    identStartCh 'x' = true ∧
    (∀ c ∈ ([] : List Char), identCh c = true) ∧
    isSpaceCh '1' = false ∧
    (';' ∉ '1' :: "0".data) ∧ ('\n' ∉ '1' :: "0".data) ∧ (';' ∉ " junk".data) ∧
    parse_value initState.constants ('1' :: "0".data) = .ok (.int 10) ∧
    parse_line initState
        ("global ".data ++ (('x' :: []) ++ (" = ".data ++ (('1' :: "0".data) ++ (';' :: " junk".data))))) =
      (.ok (), ⟨insertTbl initState.constants (String.mk ('x' :: [])) (.int 10),
        add_to_xml initState.xml_root (String.mk ('x' :: [])) (.int 10)⟩, []) :=
  ⟨by decide, by simp, by decide, by decide, by decide, by decide, rfl,
    (C10_anchored_declaration initState 'x' [] '1' "0".data " junk".data
      (by decide) (by simp) (by decide) (by decide) (by decide) (by decide)).2 (.int 10) rfl⟩
